import Mathlib

/-!
Shallow embedding of the DISC assessment scoring engine.

Two scoring modules exist in the repository and are embedded separately:
* `Scoring` — the forced-choice (most/least) module `scoring.js`:
  `calculateScores`, `determinePrimaryType`, `validateResponses`,
  `getTypeDescription`.
* `Likert` — the Likert-scale module `public/assets/js/disc.js`:
  `sumQuestions`, `countHighAnswers`, `rankStyles`, `calculateScores`.

JavaScript objects keyed by group id / question index are modelled as
functions into `Option`; an absent key is `none`.  JavaScript's stable
`Array.prototype.sort` is modelled by `List.insertionSort`, which is stable
for the same "comes before or ties" relation.
-/

/-- The four DISC dimensions, in the canonical (insertion) order D, I, S, C. -/
inductive Dim where
  | D
  | I
  | S
  | C
deriving DecidableEq, Fintype

/-- The one-letter name of a dimension, as used in labels and type order strings. -/
def dimStr : Dim → String
  | .D => "D"
  | .I => "I"
  | .S => "S"
  | .C => "C"

/-- The canonical tie-break priority, `const canonicalOrder = {D:0, I:1, S:2, C:3}` in `disc.js`. -/
def canonicalOrder : Dim → Nat
  | .D => 0
  | .I => 1
  | .S => 2
  | .C => 3

/-- The dimensions in canonical order: the key order of the `{D, I, S, C}` score objects. -/
def dims : List Dim := [Dim.D, Dim.I, Dim.S, Dim.C]

namespace Scoring

/-- One adjective of a question group: `{label, dim}` in `disc_items.json`. -/
structure Item where
  label : String
  dim : Dim
deriving DecidableEq

/-- A question group: `{id, items}` from `disc_items.json`. -/
structure Group where
  id : Nat
  items : List Item
deriving DecidableEq

/-- A forced-choice answer `{most, least}`.  Each field is an `Option` because the
JavaScript object may lack the property; an empty-string value is also falsy in the
source's `!response.most` checks, see `strFalsy`. -/
structure FCResponse where
  most : Option String
  least : Option String
deriving DecidableEq

/-- The score object `{D, I, S, C}` of `calculateScores` (integer totals). -/
structure ScoreVector where
  D : Int
  I : Int
  S : Int
  C : Int
deriving DecidableEq

/-- Dynamic read `scores[dim]`. -/
def ScoreVector.get (sv : ScoreVector) : Dim → Int
  | .D => sv.D
  | .I => sv.I
  | .S => sv.S
  | .C => sv.C

/-- Dynamic update `scores[dim] += n`. -/
def ScoreVector.add (sv : ScoreVector) : Dim → Int → ScoreVector
  | .D, n => { sv with D := sv.D + n }
  | .I, n => { sv with I := sv.I + n }
  | .S, n => { sv with S := sv.S + n }
  | .C, n => { sv with C := sv.C + n }

/-- The sum of the four dimension totals. -/
def ScoreVector.total (sv : ScoreVector) : Int :=
  sv.D + sv.I + sv.S + sv.C

/-- `group.items.find(item => item.label === sel)`: strict string equality, so an
absent (`none`) selection matches nothing. -/
def findLabel (items : List Item) (sel : Option String) : Option Item :=
  items.find? (fun item => sel == some item.label)

/-- The body of the `items.forEach(group => ...)` loop of `calculateScores`: one
group's contribution folded into the running score object.  A missing response is
skipped (`if (!response) return`), and an unmatched most/least label is silently
skipped (`if (mostItem) ... if (leastItem) ...`). -/
def applyGroup (responses : Nat → Option FCResponse) (scores : ScoreVector) (group : Group) :
    ScoreVector :=
  match responses group.id with
  | none => scores
  | some response =>
    let afterMost :=
      match findLabel group.items response.most with
      | some mostItem => scores.add mostItem.dim 1
      | none => scores
    match findLabel group.items response.least with
    | some leastItem => afterMost.add leastItem.dim (-1)
    | none => afterMost

/-- The aggregation phase of `calculateScores`: fold every group's contribution
into the zero-initialised score object. -/
def aggregateScores (responses : Nat → Option FCResponse) (items : List Group) : ScoreVector :=
  items.foldl (applyGroup responses) ⟨0, 0, 0, 0⟩

/-- The "comes before or ties" relation induced by the comparator
`(a, b) => b[1] - a[1]` (sort by score descending). -/
def fcLe (a b : Dim × Int) : Prop := b.2 ≤ a.2

instance : DecidableRel fcLe := fun a b => inferInstanceAs (Decidable (b.2 ≤ a.2))

instance : IsTotal (Dim × Int) fcLe := ⟨fun a b => Int.le_total b.2 a.2⟩

instance : IsTrans (Dim × Int) fcLe := ⟨fun _ _ _ h1 h2 => le_trans h2 h1⟩

/-- `Object.entries(scores)`: the four `[dim, score]` pairs in insertion order. -/
def scoreEntries (scores : ScoreVector) : List (Dim × Int) :=
  dims.map (fun d => (d, scores.get d))

/-- `Object.entries(scores).sort((a, b) => b[1] - a[1])`: a stable sort by score
descending, hence equal scores keep the canonical insertion order. -/
def sortedDimensions (scores : ScoreVector) : List (Dim × Int) :=
  List.insertionSort fcLe (scoreEntries scores)

/-- The ranked dimensions, i.e. `sortedDimensions.map(([dim]) => dim)`. -/
def rankedDims (scores : ScoreVector) : List Dim :=
  (sortedDimensions scores).map Prod.fst

/-- `determinePrimaryType(sortedDimensions)`: the tied-for-top dimensions decide the
label — 1 tied gives `High {dim}`, 2 or 3 tied give the concatenated letters, 4 tied
give `Balanced`.  (The `[]` case is unreachable: the list always has 4 entries.) -/
def determinePrimaryType (sortedDims : List (Dim × Int)) : String :=
  match sortedDims with
  | [] => "Balanced"
  | top :: _ =>
    let tiedDimensions := sortedDims.filter (fun p => p.2 == top.2)
    if tiedDimensions.length = 1 then
      "High " ++ (tiedDimensions.map (fun p => dimStr p.1)).getD 0 ""
    else if tiedDimensions.length = 2 then
      String.join (tiedDimensions.map (fun p => dimStr p.1))
    else if tiedDimensions.length = 3 then
      String.join (tiedDimensions.map (fun p => dimStr p.1))
    else
      "Balanced"

/-- The result object of forced-choice `calculateScores`.  The `debug` field of the
source (a JSON string of most/least counts) is not modelled; no claim concerns it. -/
structure FCResult where
  scores : ScoreVector
  primaryType : String
  typeOrder : String
deriving DecidableEq

/-- `calculateScores(responses, items)` of `scoring.js`: aggregate, sort, classify;
`typeOrder` is the ranked dimensions joined by `>`. -/
def calculateScores (responses : Nat → Option FCResponse) (items : List Group) : FCResult :=
  let scores := aggregateScores responses items
  let sorted := sortedDimensions scores
  { scores := scores
    primaryType := determinePrimaryType sorted
    typeOrder := String.intercalate ">" (sorted.map (fun p => dimStr p.1)) }

/-- JavaScript falsiness of an optional string field: absent or empty. -/
def strFalsy : Option String → Bool
  | none => true
  | some s => s == ""

/-- The per-identifier test of `validateResponses`: missing response, falsy `most`,
falsy `least`, or `most === least`. -/
def groupFailing (responses : Nat → Option FCResponse) (i : Nat) : Bool :=
  match responses i with
  | none => true
  | some response =>
    strFalsy response.most || strFalsy response.least || (response.most == response.least)

/-- The result object of `validateResponses`. -/
structure ValidationResult where
  isValid : Bool
  missingGroups : List Nat
deriving DecidableEq

/-- `validateResponses(responses, totalGroups)`: scan identifiers `1..totalGroups`
collecting every failing one; valid iff none failed. -/
def validateResponses (responses : Nat → Option FCResponse) (totalGroups : Nat) :
    ValidationResult :=
  let missingGroups := (List.range' 1 totalGroups).filter (groupFailing responses)
  { isValid := missingGroups.length == 0
    missingGroups := missingGroups }

/-- Specification-level reading of a failing identifier: the response is absent,
lacks a most selection, lacks a least selection, or has most equal to least
(absence of a selection includes the falsy empty string). -/
def failSpec (responses : Nat → Option FCResponse) (i : Nat) : Prop :=
  responses i = none ∨
    ∃ r, responses i = some r ∧
      (r.most = none ∨ r.most = some "" ∨ r.least = none ∨ r.least = some "" ∨ r.most = r.least)

/-- A description entry of `getTypeDescription`. -/
structure TypeDescription where
  title : String
  traits : List String
  worksWith : List String
  bestRoles : List String
deriving DecidableEq

/-- The `'Balanced'` description entry. -/
def balancedDescription : TypeDescription :=
  { title := "Balanced Profile"
    traits := ["Adaptable", "Versatile", "Flexible", "Well-rounded", "Situational"]
    worksWith :=
      ["Provide varied responsibilities", "Allow flexibility in approach",
        "Recognize adaptability", "Offer diverse challenges"]
    bestRoles := ["General Management", "Consulting", "Multiple Roles"] }

/-- The `descriptions` object literal of `getTypeDescription`, in insertion order. -/
def descriptionsList : List (String × TypeDescription) :=
  [("High D",
    { title := "Dominance (D)"
      traits := ["Results-focused", "Direct communicator", "Decisive", "Competitive", "Independent"]
      worksWith :=
        ["Provide clear outcomes and goals", "Allow autonomy and decision-making authority",
          "Be direct and concise in communication", "Focus on results rather than process"]
      bestRoles := ["Leadership", "Project Management", "Sales", "Entrepreneurship"] }),
   ("High I",
    { title := "Influence (I)"
      traits := ["Enthusiastic", "Optimistic", "Persuasive", "Sociable", "Trusting"]
      worksWith :=
        ["Provide opportunities for collaboration", "Recognize achievements publicly",
          "Allow time for discussion and brainstorming", "Create a positive, energetic environment"]
      bestRoles := ["Sales", "Marketing", "Public Relations", "Customer Relations"] }),
   ("High S",
    { title := "Steadiness (S)"
      traits := ["Patient", "Loyal", "Supportive", "Calm", "Consistent"]
      worksWith :=
        ["Provide clear processes and expectations", "Allow time to adapt to change",
          "Create stable, harmonious environment", "Show appreciation for their reliability"]
      bestRoles := ["Customer Service", "Human Resources", "Healthcare", "Administration"] }),
   ("High C",
    { title := "Conscientiousness (C)"
      traits := ["Analytical", "Precise", "Systematic", "Careful", "Quality-focused"]
      worksWith :=
        ["Provide detailed information and data", "Allow time for thorough analysis",
          "Respect need for accuracy and quality", "Minimize surprises and sudden changes"]
      bestRoles := ["Data Analysis", "Engineering", "Accounting", "Research", "Quality Assurance"] }),
   ("DI",
    { title := "Dominance-Influence (DI)"
      traits := ["Ambitious", "Persuasive", "Bold", "Outgoing", "Results-driven"]
      worksWith :=
        ["Provide challenging goals with social interaction",
          "Allow independence while encouraging teamwork",
          "Focus on both outcomes and people", "Offer variety and new opportunities"]
      bestRoles := ["Executive Leadership", "Business Development", "Consulting"] }),
   ("DC",
    { title := "Dominance-Conscientiousness (DC)"
      traits := ["Determined", "Systematic", "Independent", "Quality-focused", "Strategic"]
      worksWith :=
        ["Provide clear goals with high standards", "Allow autonomy to execute plans",
          "Focus on results and accuracy", "Minimize unnecessary interaction"]
      bestRoles := ["Project Management", "Technical Leadership", "Strategy"] }),
   ("IS",
    { title := "Influence-Steadiness (IS)"
      traits := ["Friendly", "Patient", "Cooperative", "Supportive", "Optimistic"]
      worksWith :=
        ["Create collaborative environment", "Provide recognition and stability",
          "Allow time for relationship building", "Focus on team harmony"]
      bestRoles := ["Customer Service", "Team Coordination", "Community Management"] }),
   ("SC",
    { title := "Steadiness-Conscientiousness (SC)"
      traits := ["Reliable", "Methodical", "Patient", "Thorough", "Consistent"]
      worksWith :=
        ["Provide clear processes and procedures", "Allow time for careful work",
          "Create stable, structured environment", "Appreciate attention to detail"]
      bestRoles := ["Operations", "Administration", "Compliance", "Quality Control"] }),
   ("Balanced", balancedDescription)]

/-- The value of `descriptions[primaryType] || descriptions['Balanced']`: either a
description object, or — for a key inherited from `Object.prototype` — the
inherited member (a function or object, hence truthy, so the `||` fallback is
suppressed and the member itself is returned). -/
inductive TypeDescriptionResult where
  | desc : TypeDescription → TypeDescriptionResult
  | protoMember : String → TypeDescriptionResult
deriving DecidableEq

/-- The property names a plain object literal inherits from `Object.prototype` in
a standard JavaScript environment: `descriptions[k]` for these `k` yields the
truthy inherited member rather than `undefined`. -/
def objectProtoKeys : List String :=
  ["constructor", "hasOwnProperty", "isPrototypeOf", "propertyIsEnumerable",
    "toLocaleString", "toString", "valueOf", "__defineGetter__", "__defineSetter__",
    "__lookupGetter__", "__lookupSetter__", "__proto__"]

/-- `getTypeDescription(primaryType)`: the object lookup
`descriptions[primaryType] || descriptions['Balanced']`.  An own key yields its
description object; a key inherited from `Object.prototype` yields the truthy
inherited member, which suppresses the `||` fallback; any other key reads
`undefined` (falsy), so the `Balanced` description is returned. -/
def getTypeDescription (primaryType : String) : TypeDescriptionResult :=
  match descriptionsList.find? (fun kv => kv.1 == primaryType) with
  | some kv => .desc kv.2
  | none =>
    if primaryType ∈ objectProtoKeys then .protoMember primaryType
    else .desc balancedDescription

/-- The highest of the four raw scores (specification-level notion of "top score"). -/
def maxScore (sv : ScoreVector) : Int :=
  max (max (max sv.D sv.I) sv.S) sv.C

/-- The dimensions tied for the top raw score, in canonical order
(specification-level notion; compared against the code's filter on the ranking). -/
def topTied (sv : ScoreVector) : List Dim :=
  dims.filter (fun d => sv.get d == maxScore sv)

/-- A group's response, when present, references only labels found in the group's
schema items (the hypothesis of the zero-sum invariant). -/
def respMatched (responses : Nat → Option FCResponse) (g : Group) : Bool :=
  match responses g.id with
  | none => true
  | some response =>
    (findLabel g.items response.most).isSome && (findLabel g.items response.least).isSome

/-- The strict precedence that the forced-choice ranking realises: higher score
first, ties in canonical order. -/
def fcStrict (a b : Dim × Int) : Prop :=
  b.2 < a.2 ∨ (a.2 = b.2 ∧ canonicalOrder a.1 < canonicalOrder b.1)

end Scoring

namespace Likert

/-- The score object `{D, I, S, C}` of `disc.js` (sums of 1–5 answers). -/
structure LikertScores where
  D : Nat
  I : Nat
  S : Nat
  C : Nat
deriving DecidableEq

/-- Dynamic read `scores[style]`. -/
def LikertScores.get (scores : LikertScores) : Dim → Nat
  | .D => scores.D
  | .I => scores.I
  | .S => scores.S
  | .C => scores.C

/-- The form state: question index to selected Likert value (radio values 1–5),
`none` when unanswered. -/
def Form : Type := Nat → Option Nat

/-- `sumQuestions(form, start, end)`: sum the selected values of questions
`start..end`, an unanswered question contributing nothing. -/
def sumQuestions (form : Form) (start stop : Nat) : Nat :=
  ((List.range' start (stop + 1 - start)).map (fun i => (form i).getD 0)).sum

/-- The `ranges = {D:[1,6], I:[7,12], S:[13,18], C:[19,24]}` table of
`countHighAnswers`. -/
def likertRange : Dim → Nat × Nat
  | .D => (1, 6)
  | .I => (7, 12)
  | .S => (13, 18)
  | .C => (19, 24)

/-- `countHighAnswers(form, style)`: how many questions of the style's range were
answered 4 or 5. -/
def countHighAnswers (form : Form) (style : Dim) : Nat :=
  ((List.range' (likertRange style).1 ((likertRange style).2 + 1 - (likertRange style).1)).filter
    (fun i => form i == some 4 || form i == some 5)).length

/-- One element of the `styles` array of `rankStyles`: `{style, score, highCount}`. -/
structure StyleEntry where
  style : Dim
  score : Nat
  highCount : Nat
deriving DecidableEq

/-- The "comes before or ties" relation induced by the `rankStyles` comparator:
score descending, then high-answer count descending, then canonical order. -/
def likLe (a b : StyleEntry) : Prop :=
  if a.score ≠ b.score then b.score ≤ a.score
  else if a.highCount ≠ b.highCount then b.highCount ≤ a.highCount
  else canonicalOrder a.style ≤ canonicalOrder b.style

instance : DecidableRel likLe := fun a b => by
  unfold likLe
  infer_instance

instance : IsTotal StyleEntry likLe := by
  constructor
  intro a b
  unfold likLe
  split_ifs <;> omega

instance : IsTrans StyleEntry likLe := by
  constructor
  intro a b c hab hbc
  unfold likLe at hab hbc ⊢
  split_ifs at hab hbc ⊢ <;> omega

/-- `Object.keys(scores).map(style => ({style, score, highCount}))` in insertion
order D, I, S, C. -/
def styleEntries (scores : LikertScores) (form : Form) : List StyleEntry :=
  dims.map (fun style =>
    { style := style, score := scores.get style, highCount := countHighAnswers form style })

/-- `rankStyles(scores, form)`: sort the style entries by the three-tier comparator
and return the styles. -/
def rankStyles (scores : LikertScores) (form : Form) : List Dim :=
  (List.insertionSort likLe (styleEntries scores form)).map StyleEntry.style

/-- The result object of Likert `calculateScores`.  The `vector` field of the
source (a JSON string of the totals) is not modelled; no claim concerns it. -/
structure LikertResult where
  totals : LikertScores
  primary : Dim
  secondary : Dim
deriving DecidableEq

/-- `calculateScores(form)` of `disc.js`: block sums 1–6, 7–12, 13–18, 19–24, then
primary and secondary from the ranking. -/
def calculateScores (form : Form) : LikertResult :=
  let scores : LikertScores :=
    { D := sumQuestions form 1 6
      I := sumQuestions form 7 12
      S := sumQuestions form 13 18
      C := sumQuestions form 19 24 }
  let ranked := rankStyles scores form
  { totals := scores
    primary := ranked.getD 0 Dim.D
    secondary := ranked.getD 1 Dim.D }

/-- The strict precedence that the Likert ranking realises: higher score first,
then higher high-answer count, then canonical order. -/
def likStrict (scores : LikertScores) (form : Form) (a b : Dim) : Prop :=
  scores.get b < scores.get a
  ∨ (scores.get a = scores.get b ∧ countHighAnswers form b < countHighAnswers form a)
  ∨ (scores.get a = scores.get b ∧ countHighAnswers form a = countHighAnswers form b
      ∧ canonicalOrder a < canonicalOrder b)

end Likert

/-! ### Concrete inputs used by the witnesses -/

/-- Likert score object with D and I tied at 25 (the tie-by-score scenario). -/
def wLikScores : Likert.LikertScores := ⟨25, 25, 0, 0⟩

/-- A Likert form whose D block (questions 1–6) has five high answers and whose
I block (questions 7–12) has three. -/
def wLikForm : Likert.Form := fun i =>
  if i ≤ 5 then some 5
  else if i = 6 then some 1
  else if i ≤ 9 then some 4
  else if i ≤ 12 then some 1
  else none

/-- The question group of the module's own `runTests`. -/
def testGroup : Scoring.Group :=
  ⟨1, [⟨"Decisive", Dim.D⟩, ⟨"Enthusiastic", Dim.I⟩, ⟨"Patient", Dim.S⟩, ⟨"Precise", Dim.C⟩]⟩

/-- A response whose most and least labels are absent from `testGroup`'s schema. -/
def mismatchedResponses : Nat → Option Scoring.FCResponse := fun i =>
  if i = 1 then some ⟨some "Bold", some "Quiet"⟩ else none

/-- A response whose most label is absent from `testGroup`'s schema while its
least label ("Patient", dimension S) matches. -/
def oneSidedResponses : Nat → Option Scoring.FCResponse := fun i =>
  if i = 1 then some ⟨some "Bold", some "Patient"⟩ else none

/-- Responses matching `testGroup`'s schema, from the module's own `runTests`. -/
def matchedResponses : Nat → Option Scoring.FCResponse := fun i =>
  if i = 1 then some ⟨some "Decisive", some "Patient"⟩ else none

/-- Validator witness input: group 1 complete, group 2 with most = least,
group 3 lacking a least selection, group 4 absent. -/
def wValResponses : Nat → Option Scoring.FCResponse := fun i =>
  if i = 1 then some ⟨some "A", some "B"⟩
  else if i = 2 then some ⟨some "A", some "A"⟩
  else if i = 3 then some ⟨some "A", none⟩
  else none

/-- A fully answered D block: questions 1–6 all answered 3. -/
def wMidForm : Likert.Form := fun i =>
  if 1 ≤ i ∧ i ≤ 6 then some 3 else none

/-! ### Generic facts about the stable insertion sort -/

theorem filter_orderedInsert {α : Type _} (r : α → α → Prop) [DecidableRel r] (p : α → Bool)
    (x : α) (l : List α) (h : ∀ y ∈ l, p x = true → p y = true → r x y) :
    (List.orderedInsert r x l).filter p =
      if p x then x :: l.filter p else l.filter p := by
  induction l with
  | nil =>
    cases hp : p x <;> simp [List.orderedInsert, List.filter_cons, hp]
  | cons b t ih =>
    simp only [List.orderedInsert]
    by_cases hxb : r x b
    · rw [if_pos hxb]
      cases hp : p x <;> cases hpb : p b <;>
        simp [List.filter_cons, hp, hpb]
    · rw [if_neg hxb]
      have ih' := ih (fun y hy => h y (List.mem_cons_of_mem b hy))
      cases hp : p x
      · rw [List.filter_cons, List.filter_cons, ih']
        simp [hp]
      · have hpb : p b = false := by
          cases hpb : p b
          · rfl
          · exact absurd (h b (List.mem_cons_self b t) hp hpb) hxb
        rw [List.filter_cons, List.filter_cons, ih']
        simp [hp, hpb]

theorem filter_insertionSort {α : Type _} (r : α → α → Prop) [DecidableRel r] (p : α → Bool)
    (l : List α) (h : ∀ a ∈ l, ∀ b ∈ l, p a = true → p b = true → r a b) :
    (List.insertionSort r l).filter p = l.filter p := by
  induction l with
  | nil => rfl
  | cons a t ih =>
    rw [List.insertionSort]
    rw [filter_orderedInsert r p a _ ?side]
    case side =>
      intro y hy hpa hpy
      have hyt : y ∈ t := (List.mem_insertionSort r).mp hy
      exact h a (List.mem_cons_self a t) y (List.mem_cons_of_mem a hyt) hpa hpy
    rw [ih (fun a' ha' b hb => h a' (List.mem_cons_of_mem a ha') b (List.mem_cons_of_mem a hb))]
    cases hp : p a <;> simp [List.filter_cons, hp]

theorem pairwise_of_filter_key {α : Type _} {κ : Type _} [DecidableEq κ] (k : α → κ)
    (R Q : α → α → Prop) (l : List α) (h1 : l.Pairwise R)
    (h2 : ∀ s : κ, (l.filter (fun a => k a == s)).Pairwise Q) :
    l.Pairwise (fun a b => R a b ∧ (k a = k b → Q a b)) := by
  induction l with
  | nil => exact List.Pairwise.nil
  | cons a t ih =>
    rw [List.pairwise_cons] at h1 ⊢
    constructor
    · intro b hb
      refine ⟨h1.1 b hb, fun hk => ?_⟩
      have hcls := h2 (k a)
      rw [List.filter_cons] at hcls
      simp only [beq_self_eq_true, if_true] at hcls
      rw [List.pairwise_cons] at hcls
      apply hcls.1
      rw [List.mem_filter]
      exact ⟨hb, by simp [hk]⟩
    · apply ih h1.2
      intro s
      have hcls := h2 s
      rw [List.filter_cons] at hcls
      by_cases hks : (k a == s) = true
      · rw [if_pos hks] at hcls
        exact hcls.of_cons
      · rw [if_neg hks] at hcls
        exact hcls

/-! ### Basic facts about the embedding -/

theorem mem_dims (d : Dim) : d ∈ dims := by
  cases d <;> simp [dims]

theorem canonicalOrder_injective :
    ∀ d e : Dim, canonicalOrder d = canonicalOrder e → d = e := by decide

namespace Scoring

theorem pairwise_canonLt_scoreEntries (sv : ScoreVector) :
    (scoreEntries sv).Pairwise (fun a b => canonicalOrder a.1 < canonicalOrder b.1) := by
  rw [scoreEntries, List.pairwise_map]
  have h : dims.Pairwise (fun d e => canonicalOrder d < canonicalOrder e) := by decide
  exact h

theorem fc_sorted_perm (sv : ScoreVector) :
    List.Perm (sortedDimensions sv) (scoreEntries sv) :=
  List.perm_insertionSort fcLe _

theorem fc_pairwise_strict (sv : ScoreVector) :
    (sortedDimensions sv).Pairwise fcStrict := by
  have h1 : (sortedDimensions sv).Pairwise fcLe :=
    List.sorted_insertionSort fcLe (scoreEntries sv)
  have h2 : ∀ s : Int, ((sortedDimensions sv).filter (fun a => a.2 == s)).Pairwise
      (fun a b => canonicalOrder a.1 < canonicalOrder b.1) := by
    intro s
    rw [sortedDimensions, filter_insertionSort fcLe _ _ ?compat]
    case compat =>
      intro a _ b _ hpa hpb
      have ha : a.2 = s := by simpa using hpa
      have hb : b.2 = s := by simpa using hpb
      show b.2 ≤ a.2
      omega
    exact (pairwise_canonLt_scoreEntries sv).filter _
  have h3 := pairwise_of_filter_key (fun a : Dim × Int => a.2) fcLe
    (fun a b => canonicalOrder a.1 < canonicalOrder b.1) (sortedDimensions sv) h1 h2
  refine h3.imp ?_
  intro a b hab
  obtain ⟨hle, htie⟩ := hab
  have hba : b.2 ≤ a.2 := hle
  rcases lt_or_eq_of_le hba with hlt | heq
  · exact Or.inl hlt
  · exact Or.inr ⟨heq.symm, htie heq.symm⟩

theorem rankedDims_perm (sv : ScoreVector) : List.Perm (rankedDims sv) dims := by
  rw [rankedDims]
  have h := (fc_sorted_perm sv).map Prod.fst
  have h2 : (scoreEntries sv).map Prod.fst = dims := rfl
  rw [h2] at h
  exact h

end Scoring

namespace Likert

theorem styleEntries_map_style (scores : LikertScores) (form : Form) :
    (styleEntries scores form).map StyleEntry.style = dims := rfl

theorem mem_styleEntries_fields {scores : LikertScores} {form : Form} {e : StyleEntry}
    (he : e ∈ styleEntries scores form) :
    e.score = scores.get e.style ∧ e.highCount = countHighAnswers form e.style := by
  simp only [styleEntries, List.mem_map] at he
  obtain ⟨d, _, rfl⟩ := he
  exact ⟨rfl, rfl⟩

theorem lik_sortedEntries_pairwise (scores : LikertScores) (form : Form) :
    (List.insertionSort likLe (styleEntries scores form)).Pairwise
      (fun a b => likStrict scores form a.style b.style) := by
  have hPw : (List.insertionSort likLe (styleEntries scores form)).Pairwise likLe :=
    List.sorted_insertionSort likLe _
  have hperm : List.Perm (List.insertionSort likLe (styleEntries scores form))
      (styleEntries scores form) := List.perm_insertionSort likLe _
  have hne : (List.insertionSort likLe (styleEntries scores form)).Pairwise
      (fun a b => a.style ≠ b.style) := by
    refine (List.Perm.pairwise_iff (fun h h2 => h h2.symm) hperm).mpr ?_
    simp only [styleEntries, List.pairwise_map]
    have h : dims.Pairwise (fun d e : Dim => d ≠ e) := by decide
    exact h
  refine List.Pairwise.imp_of_mem ?_ (hPw.and hne)
  intro a b ha hb hab
  obtain ⟨hle, hnst⟩ := hab
  obtain ⟨hsa, hca⟩ := mem_styleEntries_fields (hperm.subset ha)
  obtain ⟨hsb, hcb⟩ := mem_styleEntries_fields (hperm.subset hb)
  have hcanon : canonicalOrder a.style ≠ canonicalOrder b.style :=
    fun h => hnst (canonicalOrder_injective _ _ h)
  unfold likLe at hle
  unfold likStrict
  rw [← hsa, ← hsb, ← hca, ← hcb]
  split_ifs at hle <;> omega

theorem lik_rank_pairwise (scores : LikertScores) (form : Form) :
    (rankStyles scores form).Pairwise (likStrict scores form) := by
  rw [rankStyles, List.pairwise_map]
  exact lik_sortedEntries_pairwise scores form

theorem lik_rank_perm (scores : LikertScores) (form : Form) :
    List.Perm (rankStyles scores form) dims := by
  rw [rankStyles]
  have h := (List.perm_insertionSort likLe (styleEntries scores form)).map StyleEntry.style
  rw [styleEntries_map_style] at h
  exact h

end Likert

/-! ### Claim C1 -/

/-- Claim C1: for every score vector and high-answer counts, the ranking is a
strict total order determined by the precedence score, then high-answer count,
then canonical order D, I, S, C; in particular, among equal scores a strictly
higher high-answer count ranks first.  In the forced-choice module high-answer
counts do not exist (that tier compares equal) and the stable sort realises the
precedence score then canonical order. -/
theorem claim_c1_ranking :
    (∀ (scores : Likert.LikertScores) (form : Likert.Form),
      List.Perm (Likert.rankStyles scores form) dims
      ∧ (Likert.rankStyles scores form).Pairwise (Likert.likStrict scores form)
      ∧ (∀ a b : Dim, scores.get a = scores.get b →
          Likert.countHighAnswers form b < Likert.countHighAnswers form a →
          (Likert.rankStyles scores form).indexOf a < (Likert.rankStyles scores form).indexOf b))
    ∧ (∀ sv : Scoring.ScoreVector,
        (Scoring.sortedDimensions sv).Pairwise Scoring.fcStrict) := by
  constructor
  · intro scores form
    refine ⟨Likert.lik_rank_perm scores form, Likert.lik_rank_pairwise scores form, ?_⟩
    intro a b hs hc
    have hperm := Likert.lik_rank_perm scores form
    have hpw := Likert.lik_rank_pairwise scores form
    have ha : a ∈ Likert.rankStyles scores form := hperm.mem_iff.mpr (mem_dims a)
    have hb : b ∈ Likert.rankStyles scores form := hperm.mem_iff.mpr (mem_dims b)
    have hla : (Likert.rankStyles scores form).indexOf a < (Likert.rankStyles scores form).length :=
      List.indexOf_lt_length.mpr ha
    have hlb : (Likert.rankStyles scores form).indexOf b < (Likert.rankStyles scores form).length :=
      List.indexOf_lt_length.mpr hb
    have hga := List.indexOf_get hla
    have hgb := List.indexOf_get hlb
    rcases Nat.lt_trichotomy ((Likert.rankStyles scores form).indexOf a)
      ((Likert.rankStyles scores form).indexOf b) with h | h | h
    · exact h
    · exfalso
      have hfin : (⟨(Likert.rankStyles scores form).indexOf a, hla⟩ :
          Fin (Likert.rankStyles scores form).length) = ⟨(Likert.rankStyles scores form).indexOf b, hlb⟩ :=
        Fin.ext h
      have hab : a = b := by rw [← hga, ← hgb, hfin]
      rw [hab] at hc
      exact lt_irrefl _ hc
    · exfalso
      have hrel := List.pairwise_iff_get.mp hpw
        ⟨(Likert.rankStyles scores form).indexOf b, hlb⟩
        ⟨(Likert.rankStyles scores form).indexOf a, hla⟩ h
      rw [hga, hgb] at hrel
      unfold Likert.likStrict at hrel
      rcases hrel with h1 | ⟨h1, h2⟩ | ⟨h1, h2, h3⟩ <;> omega
  · intro sv
    exact Scoring.fc_pairwise_strict sv

/-- Witness for C1: with D and I tied at score 25, five high answers for D and
three for I, D ranks above I. -/
theorem claim_c1_ranking_witness :
    (Likert.rankStyles wLikScores wLikForm).indexOf Dim.D <
      (Likert.rankStyles wLikScores wLikForm).indexOf Dim.I :=
  (claim_c1_ranking.1 wLikScores wLikForm).2.2 Dim.D Dim.I (by decide) (by decide)

/-! ### Claim C2 -/

/-- Counterexample to claim C2 as stated: a response whose most and least labels
are absent from the group's schema produces no error of any kind — the module has
no error channel and the result is the ordinary result object, identical to the
one computed from an empty response set, with an all-zero score vector. -/
theorem claim_c2_counterexample :
    Scoring.calculateScores mismatchedResponses [testGroup] =
      Scoring.calculateScores (fun _ => none) [testGroup]
    ∧ (Scoring.calculateScores mismatchedResponses [testGroup]).scores = ⟨0, 0, 0, 0⟩ := by
  constructor <;> decide

/-- An absent selection matches no schema item, so its lookup yields `none`. -/
theorem findLabel_none_sel (items : List Scoring.Item) :
    Scoring.findLabel items none = none := by
  refine List.find?_eq_none.mpr ?_
  intro x _
  exact fun h => Bool.noConfusion h

/-- Claim C2 (amended): when a group's response references a most or a least
label absent from that group's schema, the aggregator does not fail — it silently
skips exactly that unmatched selection, scoring the group as if the selection
were absent (zero contribution from it), while a matched selection in the same
response still counts; when both labels are unmatched the score object is left
completely unchanged.  No error is raised or returned. -/
theorem claim_c2_silent_skip (responses : Nat → Option Scoring.FCResponse)
    (scores : Scoring.ScoreVector) (g : Scoring.Group) (r : Scoring.FCResponse)
    (hr : responses g.id = some r) :
    (Scoring.findLabel g.items r.most = none →
      Scoring.applyGroup responses scores g =
        Scoring.applyGroup
          (fun i => if i = g.id then some ⟨none, r.least⟩ else responses i) scores g)
    ∧ (Scoring.findLabel g.items r.least = none →
      Scoring.applyGroup responses scores g =
        Scoring.applyGroup
          (fun i => if i = g.id then some ⟨r.most, none⟩ else responses i) scores g)
    ∧ (Scoring.findLabel g.items r.most = none →
        Scoring.findLabel g.items r.least = none →
      Scoring.applyGroup responses scores g = scores) := by
  refine ⟨?_, ?_, ?_⟩
  · intro hm
    simp [Scoring.applyGroup, hr, hm, findLabel_none_sel]
  · intro hl
    simp [Scoring.applyGroup, hr, hl, findLabel_none_sel]
  · intro hm hl
    simp [Scoring.applyGroup, hr, hm, hl]

/-- Witness for the amended C2 at a one-sided concrete input: most "Bold" is
unmatched and skipped, least "Patient" still scores S with -1. -/
theorem claim_c2_silent_skip_witness :
    Scoring.applyGroup oneSidedResponses ⟨0, 0, 0, 0⟩ testGroup =
      Scoring.applyGroup
        (fun i => if i = testGroup.id then some ⟨none, some "Patient"⟩ else oneSidedResponses i)
        ⟨0, 0, 0, 0⟩ testGroup
    ∧ Scoring.applyGroup oneSidedResponses ⟨0, 0, 0, 0⟩ testGroup = ⟨0, 0, -1, 0⟩ :=
  ⟨(claim_c2_silent_skip oneSidedResponses ⟨0, 0, 0, 0⟩ testGroup
      ⟨some "Bold", some "Patient"⟩ (by decide)).1 (by decide),
    by decide⟩

/-! ### Claim C3 -/

namespace Scoring

theorem length_sortedDimensions (sv : ScoreVector) : (sortedDimensions sv).length = 4 := by
  rw [sortedDimensions, List.length_insertionSort]
  rfl

theorem get_le_maxScore (sv : ScoreVector) (d : Dim) : sv.get d ≤ maxScore sv := by
  cases d <;> simp [ScoreVector.get, maxScore]

theorem exists_get_eq_maxScore (sv : ScoreVector) : ∃ d, sv.get d = maxScore sv := by
  have h : maxScore sv = sv.D ∨ maxScore sv = sv.I ∨ maxScore sv = sv.S ∨ maxScore sv = sv.C := by
    simp only [maxScore]
    omega
  rcases h with h | h | h | h
  · exact ⟨Dim.D, h.symm⟩
  · exact ⟨Dim.I, h.symm⟩
  · exact ⟨Dim.S, h.symm⟩
  · exact ⟨Dim.C, h.symm⟩

theorem sorted_filter_top (sv : ScoreVector) (s : Int) :
    (sortedDimensions sv).filter (fun p => p.2 == s) =
      (dims.filter (fun d => sv.get d == s)).map (fun d => (d, sv.get d)) := by
  rw [sortedDimensions, filter_insertionSort fcLe _ _ ?compat]
  case compat =>
    intro a _ b _ hpa hpb
    have ha : a.2 = s := by simpa using hpa
    have hb : b.2 = s := by simpa using hpb
    show b.2 ≤ a.2
    omega
  rw [scoreEntries, List.filter_map]
  rfl

end Scoring

/-- Claim C3: the primary label is computed from the set of dimensions tied for
the top raw score — one top dimension gives `High {dim}`, two or three give their
letters concatenated in ranking (canonical) order, four give `Balanced`. -/
theorem claim_c3_primary_label (sv : Scoring.ScoreVector) :
    (∀ d : Dim, Scoring.topTied sv = [d] →
        Scoring.determinePrimaryType (Scoring.sortedDimensions sv) = "High " ++ dimStr d)
    ∧ ((Scoring.topTied sv).length = 2 ∨ (Scoring.topTied sv).length = 3 →
        Scoring.determinePrimaryType (Scoring.sortedDimensions sv) =
          String.join ((Scoring.topTied sv).map dimStr))
    ∧ ((Scoring.topTied sv).length = 4 →
        Scoring.determinePrimaryType (Scoring.sortedDimensions sv) = "Balanced") := by
  obtain ⟨top, rest, h⟩ : ∃ top rest, Scoring.sortedDimensions sv = top :: rest := by
    have hlen := Scoring.length_sortedDimensions sv
    cases hsd : Scoring.sortedDimensions sv with
    | nil => rw [hsd] at hlen; simp at hlen
    | cons t r => exact ⟨t, r, rfl⟩
  have htopmem : top ∈ Scoring.scoreEntries sv :=
    (Scoring.fc_sorted_perm sv).subset (by rw [h]; exact List.mem_cons_self _ _)
  have htople : top.2 ≤ Scoring.maxScore sv := by
    simp only [Scoring.scoreEntries, List.mem_map] at htopmem
    obtain ⟨d, _, rfl⟩ := htopmem
    exact Scoring.get_le_maxScore sv d
  have htopge : Scoring.maxScore sv ≤ top.2 := by
    obtain ⟨d, hd⟩ := Scoring.exists_get_eq_maxScore sv
    have hmem : (d, sv.get d) ∈ Scoring.sortedDimensions sv :=
      (Scoring.fc_sorted_perm sv).mem_iff.mpr (by
        simp only [Scoring.scoreEntries, List.mem_map]
        exact ⟨d, mem_dims d, rfl⟩)
    rw [h] at hmem
    rcases List.mem_cons.mp hmem with heq | hmem2
    · rw [← hd, ← heq]
    · have hsorted : (Scoring.sortedDimensions sv).Pairwise Scoring.fcLe :=
        List.sorted_insertionSort Scoring.fcLe _
      rw [h, List.pairwise_cons] at hsorted
      have hfc := hsorted.1 _ hmem2
      rw [← hd]
      exact hfc
  have htop : top.2 = Scoring.maxScore sv := le_antisymm htople htopge
  have htied : (top :: rest).filter (fun p => p.2 == top.2) =
      (Scoring.topTied sv).map (fun d => (d, sv.get d)) := by
    rw [← h, htop, Scoring.sorted_filter_top]
    rfl
  have hdp : Scoring.determinePrimaryType (Scoring.sortedDimensions sv) =
      (if (Scoring.topTied sv).length = 1 then
        "High " ++ ((Scoring.topTied sv).map dimStr).getD 0 ""
      else if (Scoring.topTied sv).length = 2 then
        String.join ((Scoring.topTied sv).map dimStr)
      else if (Scoring.topTied sv).length = 3 then
        String.join ((Scoring.topTied sv).map dimStr)
      else "Balanced") := by
    rw [h]
    simp only [Scoring.determinePrimaryType]
    rw [htied]
    simp only [List.length_map, List.map_map]
    rfl
  refine ⟨?_, ?_, ?_⟩
  · intro d h1
    rw [hdp, h1]
    rfl
  · intro h23
    rw [hdp]
    rcases h23 with h2 | h3
    · rw [if_neg (by omega), if_pos h2]
    · rw [if_neg (by omega), if_neg (by omega), if_pos h3]
  · intro h4
    rw [hdp, if_neg (by omega), if_neg (by omega), if_neg (by omega)]

/-- Witness for C3: the three-way semantic tie D=I=S=2, C=-1 yields the label
"DIS" (the tied letters in canonical order). -/
theorem claim_c3_primary_label_witness :
    Scoring.determinePrimaryType (Scoring.sortedDimensions ⟨2, 2, 2, -1⟩) = "DIS" := by
  have h := (claim_c3_primary_label ⟨2, 2, 2, -1⟩).2.1 (Or.inr (by decide))
  rw [h]
  decide

/-! ### Claim C4 -/

namespace Scoring

theorem groupFailing_iff (responses : Nat → Option FCResponse) (i : Nat) :
    groupFailing responses i = true ↔ failSpec responses i := by
  cases hri : responses i with
  | none => simp [groupFailing, failSpec, hri]
  | some r =>
    simp only [groupFailing, failSpec, hri]
    constructor
    · intro h
      refine Or.inr ⟨r, rfl, ?_⟩
      cases hm : r.most with
      | none => exact Or.inl rfl
      | some sm =>
        cases hl : r.least with
        | none => exact Or.inr (Or.inr (Or.inl rfl))
        | some sl =>
          rw [hm, hl] at h
          simp only [strFalsy, Bool.or_eq_true, beq_iff_eq, Option.some.injEq] at h
          rcases h with (h1 | h1) | h1
          · exact Or.inr (Or.inl (by rw [h1]))
          · exact Or.inr (Or.inr (Or.inr (Or.inl (by rw [h1]))))
          · exact Or.inr (Or.inr (Or.inr (Or.inr (by rw [h1]))))
    · rintro (h | ⟨r', hr', hcond⟩)
      · exact absurd h (by simp)
      · injection hr' with he
        subst he
        rcases hcond with h1 | h1 | h1 | h1 | h1 <;> simp [h1, strFalsy]

end Scoring

/-- Claim C4: the validator returns `isValid` true exactly when the missing list
is empty, and that list contains exactly the identifiers in `1..totalGroups`
whose response is absent, lacks a most selection, lacks a least selection, or
has most equal to least — the complete set, in ascending order. -/
theorem claim_c4_validator (responses : Nat → Option Scoring.FCResponse) (totalGroups : Nat) :
    ((Scoring.validateResponses responses totalGroups).isValid = true ↔
      (Scoring.validateResponses responses totalGroups).missingGroups = [])
    ∧ (∀ i, i ∈ (Scoring.validateResponses responses totalGroups).missingGroups ↔
        (1 ≤ i ∧ i ≤ totalGroups ∧ Scoring.failSpec responses i))
    ∧ ((Scoring.validateResponses responses totalGroups).missingGroups).Sorted (· < ·) := by
  refine ⟨?_, ?_, ?_⟩
  · simp [Scoring.validateResponses, List.length_eq_zero]
  · intro i
    simp only [Scoring.validateResponses, List.mem_filter, List.mem_range'_1,
      Scoring.groupFailing_iff]
    constructor
    · rintro ⟨⟨h1, h2⟩, h3⟩
      exact ⟨h1, by omega, h3⟩
    · rintro ⟨h1, h2, h3⟩
      exact ⟨⟨h1, by omega⟩, h3⟩
  · exact (List.pairwise_lt_range' 1 totalGroups).filter _

/-- Witness for C4 at a concrete input: group 1 is complete, group 2 has
most = least, group 3 lacks a least selection, group 4 is absent; exactly
2, 3, 4 are reported, in ascending order. -/
theorem claim_c4_validator_witness :
    2 ∈ (Scoring.validateResponses wValResponses 4).missingGroups
    ∧ (Scoring.validateResponses wValResponses 4).missingGroups = [2, 3, 4] := by
  constructor
  · exact ((claim_c4_validator wValResponses 4).2.1 2).mpr
      ⟨by omega, by omega,
        Or.inr ⟨⟨some "A", some "A"⟩, rfl, Or.inr (Or.inr (Or.inr (Or.inr rfl)))⟩⟩
  · decide

/-! ### Claim C5 -/

/-- Claim C5: in both scoring modes the ranked dimensions are a permutation of
exactly D, I, S, C — no repeats, no omissions — and the forced-choice `typeOrder`
string is that ranking joined by the separator. -/
theorem claim_c5_permutation :
    (∀ sv : Scoring.ScoreVector, List.Perm (Scoring.rankedDims sv) dims)
    ∧ (∀ (responses : Nat → Option Scoring.FCResponse) (items : List Scoring.Group),
        (Scoring.calculateScores responses items).typeOrder =
          String.intercalate ">"
            ((Scoring.rankedDims (Scoring.aggregateScores responses items)).map dimStr))
    ∧ (∀ (scores : Likert.LikertScores) (form : Likert.Form),
        List.Perm (Likert.rankStyles scores form) dims) := by
  refine ⟨Scoring.rankedDims_perm, ?_, Likert.lik_rank_perm⟩
  intro responses items
  simp only [Scoring.calculateScores, Scoring.rankedDims, List.map_map]
  rfl

/-! ### Claim C6 -/

namespace Scoring

theorem get_add (sv : ScoreVector) (e : Dim) (n : Int) (d : Dim) :
    (sv.add e n).get d = sv.get d + (if d = e then n else 0) := by
  cases e <;> cases d <;> simp [ScoreVector.add, ScoreVector.get]

theorem applyGroup_get_bound (responses : Nat → Option FCResponse) (sv : ScoreVector)
    (g : Group) (d : Dim) :
    sv.get d - 1 ≤ (applyGroup responses sv g).get d
    ∧ (applyGroup responses sv g).get d ≤ sv.get d + 1 := by
  rcases hr : responses g.id with _ | r
  · simp only [applyGroup, hr]
    omega
  · rcases hm : findLabel g.items r.most with _ | mi <;>
      rcases hl : findLabel g.items r.least with _ | li <;>
      simp only [applyGroup, hr, hm, hl, get_add] <;>
      first
        | (split_ifs <;> omega)
        | omega

theorem foldl_get_bound (responses : Nat → Option FCResponse) (d : Dim) :
    ∀ (items : List Group) (sv : ScoreVector),
      sv.get d - items.length ≤ (items.foldl (applyGroup responses) sv).get d
      ∧ (items.foldl (applyGroup responses) sv).get d ≤ sv.get d + items.length := by
  intro items
  induction items with
  | nil =>
    intro sv
    simp
  | cons g t ih =>
    intro sv
    have h1 := applyGroup_get_bound responses sv g d
    have h2 := ih (applyGroup responses sv g)
    simp only [List.foldl_cons, List.length_cons] at h2 ⊢
    push_cast at h2 ⊢
    omega

end Scoring

namespace Likert

theorem sum_range_bound (form : Form) :
    ∀ (n s : Nat), (∀ i, s ≤ i → i < s + n → ∃ v, form i = some v ∧ 1 ≤ v ∧ v ≤ 5) →
      n ≤ ((List.range' s n).map (fun i => (form i).getD 0)).sum
      ∧ ((List.range' s n).map (fun i => (form i).getD 0)).sum ≤ 5 * n := by
  intro n
  induction n with
  | zero =>
    intro s _
    simp
  | succ m ih =>
    intro s h
    rw [List.range'_succ]
    obtain ⟨v, hv, h1, h5⟩ := h s (le_refl s) (by omega)
    have ih' := ih (s + 1) (fun i hi1 hi2 => h i (by omega) (by omega))
    simp only [List.map_cons, List.sum_cons, hv, Option.getD_some]
    omega

end Likert

/-- Claim C6: each dimension total lies within the scheme's bounds — in the
forced-choice module between `-N` and `N` for `N` groups (proved for all inputs,
validated or not), and in the Likert module between the block size and five times
the block size whenever every question of the block is answered with 1–5. -/
theorem claim_c6_range :
    (∀ (responses : Nat → Option Scoring.FCResponse) (items : List Scoring.Group) (d : Dim),
        -(items.length : Int) ≤ (Scoring.aggregateScores responses items).get d
        ∧ (Scoring.aggregateScores responses items).get d ≤ (items.length : Int))
    ∧ (∀ (form : Likert.Form) (start stop : Nat),
        (∀ i, start ≤ i → i ≤ stop → ∃ v, form i = some v ∧ 1 ≤ v ∧ v ≤ 5) →
        (stop + 1 - start) ≤ Likert.sumQuestions form start stop
        ∧ Likert.sumQuestions form start stop ≤ 5 * (stop + 1 - start)) := by
  constructor
  · intro responses items d
    have h := Scoring.foldl_get_bound responses d items ⟨0, 0, 0, 0⟩
    have h0 : (⟨0, 0, 0, 0⟩ : Scoring.ScoreVector).get d = 0 := by cases d <;> rfl
    rw [h0] at h
    unfold Scoring.aggregateScores
    omega
  · intro form start stop h
    exact Likert.sum_range_bound form (stop + 1 - start) start
      (fun i hi1 hi2 => h i hi1 (by omega))

/-- Witness for C6: the fully answered D block of all 3s sums to 18, within
the bounds 6 and 30. -/
theorem claim_c6_range_witness :
    6 ≤ Likert.sumQuestions wMidForm 1 6 ∧ Likert.sumQuestions wMidForm 1 6 ≤ 30 := by
  have hside : ∀ i, 1 ≤ i → i ≤ 6 → ∃ v, wMidForm i = some v ∧ 1 ≤ v ∧ v ≤ 5 := by
    intro i h1 h2
    exact ⟨3, by simp [wMidForm, h1, h2], by omega, by omega⟩
  have h := claim_c6_range.2 wMidForm 1 6 hside
  simpa using h

/-! ### Claim C7 -/

namespace Scoring

theorem applyGroup_none (responses : Nat → Option FCResponse) (sv : ScoreVector)
    (g : Group) (h : responses g.id = none) :
    applyGroup responses sv g = sv := by
  simp [applyGroup, h]

theorem foldl_filter_responded (responses : Nat → Option FCResponse) :
    ∀ (items : List Group) (sv : ScoreVector),
      items.foldl (applyGroup responses) sv =
        (items.filter (fun g => (responses g.id).isSome)).foldl (applyGroup responses) sv := by
  intro items
  induction items with
  | nil =>
    intro sv
    rfl
  | cons g t ih =>
    intro sv
    rw [List.filter_cons]
    by_cases hg : (responses g.id).isSome = true
    · rw [if_pos hg]
      simp only [List.foldl_cons]
      exact ih _
    · rw [if_neg hg]
      simp only [List.foldl_cons]
      rw [applyGroup_none responses sv g (Option.not_isSome_iff_eq_none.mp hg)]
      exact ih sv

end Scoring

namespace Likert

theorem sum_filter_answered (form : Form) :
    ∀ (n s : Nat),
      ((List.range' s n).map (fun i => (form i).getD 0)).sum =
        (((List.range' s n).filter (fun i => (form i).isSome)).map
          (fun i => (form i).getD 0)).sum := by
  intro n
  induction n with
  | zero =>
    intro s
    rfl
  | succ m ih =>
    intro s
    rw [List.range'_succ, List.filter_cons]
    by_cases hs : (form s).isSome = true
    · rw [if_pos hs]
      simp only [List.map_cons, List.sum_cons, ih]
    · rw [if_neg hs]
      have h0 : (form s).getD 0 = 0 := by
        rw [Option.not_isSome_iff_eq_none.mp hs]
        rfl
      simp only [List.map_cons, List.sum_cons, h0, ih, Nat.zero_add]

end Likert

/-- Claim C7: aggregation is total over partial inputs — a forced-choice group
with no response leaves the score object unchanged (contributes 0 to every
dimension, so only responded groups matter), and a Likert sum is the sum over
the answered questions only (an unanswered question contributes 0). -/
theorem claim_c7_partial_total :
    (∀ (responses : Nat → Option Scoring.FCResponse) (sv : Scoring.ScoreVector)
        (g : Scoring.Group), responses g.id = none →
        Scoring.applyGroup responses sv g = sv)
    ∧ (∀ (responses : Nat → Option Scoring.FCResponse) (items : List Scoring.Group),
        Scoring.aggregateScores responses items =
          Scoring.aggregateScores responses (items.filter (fun g => (responses g.id).isSome)))
    ∧ (∀ (form : Likert.Form) (start stop : Nat),
        Likert.sumQuestions form start stop =
          (((List.range' start (stop + 1 - start)).filter (fun i => (form i).isSome)).map
            (fun i => (form i).getD 0)).sum) := by
  refine ⟨Scoring.applyGroup_none, ?_, ?_⟩
  · intro responses items
    unfold Scoring.aggregateScores
    exact Scoring.foldl_filter_responded responses items ⟨0, 0, 0, 0⟩
  · intro form start stop
    exact Likert.sum_filter_answered form (stop + 1 - start) start

/-- Witness for C7: a group with no response leaves a concrete score object
unchanged. -/
theorem claim_c7_partial_total_witness :
    Scoring.applyGroup (fun _ => none) ⟨1, 2, 3, 4⟩ testGroup = ⟨1, 2, 3, 4⟩ :=
  claim_c7_partial_total.1 (fun _ => none) ⟨1, 2, 3, 4⟩ testGroup rfl

/-! ### Claim C8 -/

/-- Claim C8: both scoring pipelines are pure functions of their input — two
evaluations on the same responses and schema yield identical score vectors, type
order, primary label, and Likert result; no randomness or hidden state exists in
the embedding. -/
theorem claim_c8_deterministic (responses : Nat → Option Scoring.FCResponse)
    (items : List Scoring.Group) (form : Likert.Form) :
    (Scoring.calculateScores responses items).scores
        = (Scoring.calculateScores responses items).scores
    ∧ (Scoring.calculateScores responses items).typeOrder
        = (Scoring.calculateScores responses items).typeOrder
    ∧ (Scoring.calculateScores responses items).primaryType
        = (Scoring.calculateScores responses items).primaryType
    ∧ Likert.calculateScores form = Likert.calculateScores form :=
  ⟨rfl, rfl, rfl, rfl⟩

/-! ### Claim C9 -/

namespace Scoring

theorem total_add (sv : ScoreVector) (e : Dim) (n : Int) :
    (sv.add e n).total = sv.total + n := by
  cases e <;> simp [ScoreVector.add, ScoreVector.total] <;> ring

theorem applyGroup_total (responses : Nat → Option FCResponse) (sv : ScoreVector) (g : Group)
    (h : respMatched responses g = true) :
    (applyGroup responses sv g).total = sv.total := by
  rcases hr : responses g.id with _ | r
  · simp [applyGroup, hr]
  · rcases hm : findLabel g.items r.most with _ | mi
    · simp only [respMatched, hr, hm] at h
      simp at h
    · rcases hl : findLabel g.items r.least with _ | li
      · simp only [respMatched, hr, hm, hl] at h
        simp at h
      · simp only [applyGroup, hr, hm, hl, total_add]
        omega

theorem foldl_total (responses : Nat → Option FCResponse) :
    ∀ (items : List Group) (sv : ScoreVector),
      (∀ g ∈ items, respMatched responses g = true) →
      (items.foldl (applyGroup responses) sv).total = sv.total := by
  intro items
  induction items with
  | nil =>
    intro sv _
    rfl
  | cons g t ih =>
    intro sv h
    simp only [List.foldl_cons]
    rw [ih (applyGroup responses sv g) (fun g' hg' => h g' (List.mem_cons_of_mem g hg'))]
    exact applyGroup_total responses sv g (h g (List.mem_cons_self g t))

end Scoring

/-- Claim C9: whenever every answered group's most and least labels match items of
that group's schema, every group contributes +1 and -1, so the four dimension
totals sum to zero. -/
theorem claim_c9_zero_sum (responses : Nat → Option Scoring.FCResponse)
    (items : List Scoring.Group)
    (h : ∀ g ∈ items, Scoring.respMatched responses g = true) :
    (Scoring.aggregateScores responses items).total = 0 := by
  unfold Scoring.aggregateScores
  rw [Scoring.foldl_total responses items ⟨0, 0, 0, 0⟩ h]
  rfl

/-- Witness for C9 at the module's own test input: most Decisive (D), least
Patient (S) gives totals summing to zero. -/
theorem claim_c9_zero_sum_witness :
    (Scoring.aggregateScores matchedResponses [testGroup]).total = 0 :=
  claim_c9_zero_sum matchedResponses [testGroup] (by decide)

/-! ### Claim C10 -/

/-- Counterexample to claim C10 as stated: "toString" is not among the nine
defined keys, yet the lookup does not return the Balanced description — the
object literal inherits a truthy `toString` member from `Object.prototype`,
which suppresses the `||` fallback and is returned instead. -/
theorem claim_c10_counterexample :
    "toString" ∉ Scoring.descriptionsList.map Prod.fst
    ∧ Scoring.getTypeDescription "toString" ≠
        Scoring.TypeDescriptionResult.desc Scoring.balancedDescription := by
  constructor <;> decide

/-- Claim C10 (amended): every primary type string that is neither one of the
nine defined keys nor a property name inherited from `Object.prototype` (such as
"toString", "constructor", "__proto__") — the pair labels DS and IC and any
three-letter tie label included — falls back to the Balanced description object
instead of failing or returning nothing. -/
theorem claim_c10_fallback (t : String)
    (h1 : t ∉ Scoring.descriptionsList.map Prod.fst)
    (h2 : t ∉ Scoring.objectProtoKeys) :
    Scoring.getTypeDescription t =
      Scoring.TypeDescriptionResult.desc Scoring.balancedDescription := by
  unfold Scoring.getTypeDescription
  have hnone : Scoring.descriptionsList.find? (fun kv => kv.1 == t) = none := by
    rw [List.find?_eq_none]
    intro kv hkv
    simp only [beq_iff_eq]
    intro he
    exact h1 (he ▸ List.mem_map_of_mem Prod.fst hkv)
  rw [hnone, if_neg h2]

/-- Witness for C10: the undefined pair labels DS and IC and the three-letter
label DIS all yield the Balanced description. -/
theorem claim_c10_fallback_witness :
    Scoring.getTypeDescription "DS" =
      Scoring.TypeDescriptionResult.desc Scoring.balancedDescription
    ∧ Scoring.getTypeDescription "IC" =
      Scoring.TypeDescriptionResult.desc Scoring.balancedDescription
    ∧ Scoring.getTypeDescription "DIS" =
      Scoring.TypeDescriptionResult.desc Scoring.balancedDescription :=
  ⟨claim_c10_fallback "DS" (by decide) (by decide),
    claim_c10_fallback "IC" (by decide) (by decide),
    claim_c10_fallback "DIS" (by decide) (by decide)⟩
